import Mathlib

/-!
# Verification of the x-scraper resumable incremental crawl engine

Shallow embedding of the core of the repository:

* `CheckpointManager.merge_tweets` and `CheckpointManager.save_all_tweets`
  (src/src/checkpoint_manager.py), including the CPython-dict insertion-order
  semantics of the id-keyed mapping they build;
* the scroll loop `PlaywrightScraper._scroll_timeline` together with the
  response-interception dedup step of `_parse_tweets_from_timeline` /
  `_parse_single_tweet` (src/src/playwright_scraper.py);
* the post-scroll commit sequence of `XScraper.scrape_user_tweets`
  (src/src/scraper.py), in particular the order of the checkpoint and
  archive writes and the error-path return values.

Tweets are Python dicts in the source; only their `id` field (a string that
may be missing or empty, i.e. falsy) is inspected by the code under study,
so a tweet is modelled as an optional id together with an opaque body.
-/

namespace XScraper

/-- A tweet record.  The source code inspects only `tweet.get('id')`;
all remaining fields are abstracted into `body`. -/
structure Tweet where
  id : Option String
  body : Nat
deriving DecidableEq

/-- Python truthiness of `tweet.get('id')`: `None` and the empty string are
falsy.  Returns the id exactly when the source's `if tweet_id:` guard
passes. -/
def truthyId (t : Tweet) : Option String :=
  match t.id with
  | none => none
  | some s => if s = "" then none else some s

/-- `tweet.get('id') in existing_tweet_ids` as evaluated by
`_scroll_timeline`'s overlap counter: raw membership of the (possibly
falsy) id in the set of existing ids. -/
def rawIdMem (existing : List String) (t : Tweet) : Bool :=
  match t.id with
  | none => false
  | some s => decide (s ∈ existing)

/-- An id-keyed mapping with CPython `dict` semantics: an association list
in insertion order. -/
abbrev TweetMap := List (String × Tweet)

/-- `d[k] = v` on a CPython dict: if the key is present its value is
updated in place (position preserved), otherwise the pair is appended. -/
def mapInsert (m : TweetMap) (k : String) (v : Tweet) : TweetMap :=
  if k ∈ m.map Prod.fst then
    m.map (fun p => if p.1 = k then (k, v) else p)
  else
    m ++ [(k, v)]

/-- One loop body of `merge_tweets`:
`tweet_id = tweet.get('id'); if tweet_id: all_tweets[tweet_id] = tweet`. -/
def insertTweet (m : TweetMap) (t : Tweet) : TweetMap :=
  match truthyId t with
  | none => m
  | some k => mapInsert m k t

/-- Folding a list of tweets into the id-keyed dict, as both `for` loops of
`merge_tweets` do. -/
def buildMap (m : TweetMap) (ts : List Tweet) : TweetMap :=
  ts.foldl insertTweet m

/-- `CheckpointManager.merge_tweets` (src/src/checkpoint_manager.py:120-139):
insert all existing tweets keyed by id, then all new tweets (overwriting),
and return `list(all_tweets.values())` in dict insertion order. -/
def merge_tweets (existing_tweets new_tweets : List Tweet) : List Tweet :=
  (buildMap (buildMap [] existing_tweets) new_tweets).map Prod.snd

/-- Python `s.isdigit()` for ASCII-digit strings: nonempty and all
characters are digits. -/
def strIsDigit (s : String) : Bool :=
  !s.data.isEmpty && s.data.all Char.isDigit

/-- Python `int(s)` on an ASCII-digit string. -/
def strToNatVal (s : String) : Nat :=
  s.data.foldl (fun n c => n * 10 + (c.toNat - 48)) 0

/-- The sort key used by `save_all_tweets` and by the orchestrator's
checkpoint computation: `int(x.get('id', '0')) if x.get('id', '').isdigit()
else 0`. -/
def sortKeyNum (t : Tweet) : Nat :=
  match t.id with
  | none => 0
  | some s => if strIsDigit s then strToNatVal s else 0

/-- Python's stable `sorted(..., key=sortKeyNum, reverse=True)`. -/
def sortByIdDesc (ts : List Tweet) : List Tweet :=
  ts.insertionSort (fun a b => sortKeyNum b ≤ sortKeyNum a)

/-- Python's stable `sorted(..., key=sortKeyNum)` (ascending), used by the
orchestrator to find oldest/newest tweets. -/
def sortByIdAsc (ts : List Tweet) : List Tweet :=
  ts.insertionSort (fun a b => sortKeyNum a ≤ sortKeyNum b)

/-- The `unique_tweets` loop of `save_all_tweets`
(src/src/checkpoint_manager.py:86-90): first occurrence of each truthy id
wins, falsy ids are dropped. -/
def uniqueInsert (m : TweetMap) (t : Tweet) : TweetMap :=
  match truthyId t with
  | none => m
  | some k => if k ∈ m.map Prod.fst then m else m ++ [(k, t)]

/-- `CheckpointManager.save_all_tweets` (src/src/checkpoint_manager.py:81-118),
restricted to the tweet list it persists: deduplicate by id (first wins),
then sort by numeric id descending. -/
def save_all_tweets (all_tweets : List Tweet) : List Tweet :=
  sortByIdDesc ((all_tweets.foldl uniqueInsert []).map Prod.snd)

/-!
## Spec-side merge definitions (for the refinement comparison of C3)

These follow the spec's words in §4.5: "build a mapping keyed by `id`;
insert all `existing` items first, then overwrite/insert all `new` items
...; result is the value set of that mapping, sorted by numeric id
descending."
-/

/-- The spec's mapping: all existing items inserted first, then all new
items overwriting/inserting, keyed by id. -/
def specMergeMapping (existing_tweets new_tweets : List Tweet) : TweetMap :=
  (existing_tweets ++ new_tweets).foldl insertTweet []

/-- The spec's merge law result: value set of the mapping, sorted by
numeric id descending. -/
def specMergeSorted (existing_tweets new_tweets : List Tweet) : List Tweet :=
  sortByIdDesc ((specMergeMapping existing_tweets new_tweets).map Prod.snd)

/-- Lookup of a key in the mapping (`find?` on first matching key). -/
def mapLookup (k : String) (m : TweetMap) : Option Tweet :=
  (m.find? (fun p => p.1 = k)).map Prod.snd

/-- The last tweet of `ts` carrying (truthy) id `k`, if any — the
"last-writer-wins" value of the spec's merge law. -/
def lastKeyed (k : String) : List Tweet → Option Tweet
  | [] => none
  | t :: ts =>
    match lastKeyed k ts with
    | some x => some x
    | none => if truthyId t = some k then some t else none

/-- Well-formedness of the id-keyed dict: every entry's key is the truthy
id of its value (true of every dict the source builds). -/
def MapWF (m : TweetMap) : Prop :=
  ∀ p ∈ m, truthyId p.2 = some p.1

/-- An archive as the source persists it: every item has a truthy id and
no id occurs twice. -/
def ArchiveWF (ts : List Tweet) : Prop :=
  (∀ t ∈ ts, (truthyId t).isSome) ∧ (ts.filterMap truthyId).Nodup

/-- Pair an archive item with its (truthy) id key. -/
def keyPair (t : Tweet) : String × Tweet :=
  ((truthyId t).getD "", t)

/-!
## The scroll loop (`PlaywrightScraper._scroll_timeline`)

The loop drives the page; tweets are delivered asynchronously by
`_intercept_response` → `_parse_tweets_from_timeline`, which appends to
`self.all_tweets` / `self.scraped_tweet_ids`.  All awaited operations run
on one cooperative event loop, so each iteration is modelled as: snapshot
the buffer length, deliver one environment-chosen batch of parsed tweets
through the dedup step of `_parse_tweets_from_timeline` (lines 244-251),
then run the iteration's bookkeeping and termination checks exactly as in
lines 755-849 of src/src/playwright_scraper.py.
-/

/-- The mutable collection state: `self.all_tweets` and
`self.scraped_tweet_ids` (insertion-ordered; Python sets are modelled as
the list of ids in insertion order, membership being all that is used). -/
structure ScrollState where
  allTweets : List Tweet
  scrapedIds : List String
deriving DecidableEq

/-- The state right after `scrape_user_tweets` /
`_prepare_scraping_session` clears both collections. -/
def freshState : ScrollState := { allTweets := [], scrapedIds := [] }

/-- The dedup step of `_parse_tweets_from_timeline` (lines 245-251) for one
parsed tweet: skip falsy ids, skip ids already scraped this session, skip
ids present in `existing_tweet_ids`, otherwise append the tweet and record
its id. -/
def acceptTweet (existing : List String) (st : ScrollState) (t : Tweet) : ScrollState :=
  match truthyId t with
  | none => st
  | some k =>
    if k ∈ st.scrapedIds then st
    else if k ∈ existing then st
    else { allTweets := st.allTweets ++ [t], scrapedIds := st.scrapedIds ++ [k] }

/-- Delivery of one batch of parsed tweets into the shared buffer. -/
def ingest (existing : List String) (st : ScrollState) (batch : List Tweet) : ScrollState :=
  batch.foldl (acceptTweet existing) st

/-- The collection invariant maintained by the dedup step: the session
dedup set lists exactly the (truthy) ids of the buffered tweets, in
order, without repetition; every buffered tweet has a truthy id; and no
buffered tweet's raw id lies in `existing` (the parser filters them
out). -/
def BufferInv (existing : List String) (st : ScrollState) : Prop :=
  st.scrapedIds = st.allTweets.filterMap truthyId ∧
  st.scrapedIds.Nodup ∧
  (∀ t ∈ st.allTweets, (truthyId t).isSome) ∧
  (∀ t ∈ st.allTweets, rawIdMem existing t = false)

/-- Configuration of one `_scroll_timeline` invocation (constructor
arguments plus the scraping-config fields it reads). -/
structure ScrollConfig where
  maxScrollAttempts : Nat
  maxAttemptsWithoutNew : Nat
  overlapThreshold : Nat
  maxTweetsPerSession : Option Nat
  resumeFrom : Option String
  existingIds : List String
deriving DecidableEq

/-- What the environment supplies during one loop iteration: the batch of
tweets parsed from intercepted responses, the page's is-at-bottom
measurement, and whether more than 600 s of wall clock have elapsed. -/
structure ScrollInput where
  batch : List Tweet
  isAtBottom : Bool
  elapsedOver600 : Bool
deriving DecidableEq

/-- Iterations past the end of the supplied input list observe no new
responses. -/
def defaultInput : ScrollInput := { batch := [], isAtBottom := false, elapsedOver600 := false }

/-- The loop's local variables. -/
structure LoopState where
  st : ScrollState
  scrollAttempts : Nat
  attemptsWithoutNew : Nat
  resumePointFound : Bool
deriving DecidableEq

/-- Why the loop stopped (one constructor per `break`). -/
inductive StopReason where
  | zeroAbort
  | resumeNotFound
  | noNewStop
  | capStop
  | bottomStop
  | timeAbort
deriving DecidableEq

/-- Python truthiness of `resume_from_tweet_id`. -/
def truthyStrOpt (o : Option String) : Bool :=
  match o with
  | none => false
  | some s => decide (s ≠ "")

/-- `self.max_tweets_per_session and len(self.all_tweets) >= self.max_tweets_per_session`
(an `int` of 0 is falsy, disabling the cap). -/
def capReached (cap : Option Nat) (n : Nat) : Bool :=
  match cap with
  | none => false
  | some m => decide (m ≠ 0) && decide (m ≤ n)

/-- `overlap_count = sum(1 for tweet in self.all_tweets if tweet.get('id') in existing_tweet_ids)`. -/
def overlapCount (existing : List String) (st : ScrollState) : Nat :=
  (st.allTweets.filter (rawIdMem existing)).length

/-- The trailing checks of an iteration that did not `break` in the
no-new-tweets branch: session cap (line 813), bottom-of-page (line 826)
and the 10-minute zero-progress ceiling (line 846). -/
def tailChecks (cfg : ScrollConfig) (inp : ScrollInput) (ls : LoopState) :
    LoopState × Option StopReason :=
  if ls.resumePointFound && capReached cfg.maxTweetsPerSession ls.st.allTweets.length then
    (ls, some StopReason.capStop)
  else if inp.isAtBottom && decide (10 < ls.attemptsWithoutNew) then
    (ls, some StopReason.bottomStop)
  else if inp.elapsedOver600 && decide (ls.st.allTweets.length = 0) then
    (ls, some StopReason.timeAbort)
  else
    (ls, none)

/-- The guard of the resume-overlap clear (lines 771-774): the check runs
only while `resume_from_tweet_id` is truthy, the resume point is not yet
found and `existing_tweet_ids` is nonempty; it fires when the overlap
count reaches the threshold. -/
def overlapClearFires (cfg : ScrollConfig) (resumePointFound : Bool) (stP : ScrollState) : Bool :=
  truthyStrOpt cfg.resumeFrom && !resumePointFound && !cfg.existingIds.isEmpty
    && decide (cfg.overlapThreshold ≤ overlapCount cfg.existingIds stP)

/-- Bookkeeping and termination checks of one `while` iteration of
`_scroll_timeline` (src/src/playwright_scraper.py:755-849), given the
buffer state `stP` after this iteration's response deliveries and
whether the resume-overlap clear fires. -/
def scrollIterCore (cfg : ScrollConfig) (inp : ScrollInput) (ls : LoopState)
    (stP : ScrollState) (clearFires : Bool) : LoopState × Option StopReason :=
  let attempts := ls.scrollAttempts + 1
  let newTweetsP := stP.allTweets.length - ls.st.allTweets.length
  let st2 := if clearFires then freshState else stP
  let found2 := ls.resumePointFound || clearFires
  let newTweets := if clearFires then 0 else newTweetsP
  let awnPre := if clearFires then 0 else ls.attemptsWithoutNew
  if 0 < newTweets then
    tailChecks cfg inp { st := st2, scrollAttempts := attempts, attemptsWithoutNew := 0, resumePointFound := found2 }
  else
    let awn := awnPre + 1
    let ls' : LoopState :=
      { st := st2, scrollAttempts := attempts, attemptsWithoutNew := awn, resumePointFound := found2 }
    if decide (20 ≤ attempts) && decide (st2.allTweets.length = 0) then
      (ls', some StopReason.zeroAbort)
    else if !found2 && decide (100 ≤ awn) then
      (ls', some StopReason.resumeNotFound)
    else if found2 && decide (cfg.maxAttemptsWithoutNew ≤ awn) then
      (ls', some StopReason.noNewStop)
    else
      tailChecks cfg inp ls'

/-- One iteration of the `while` body of `_scroll_timeline`: deliver the
batch through the parser's dedup step, then run the iteration's
bookkeeping and termination checks. -/
def scrollIter (cfg : ScrollConfig) (inp : ScrollInput) (ls : LoopState) :
    LoopState × Option StopReason :=
  let stP := ingest cfg.existingIds ls.st inp.batch
  scrollIterCore cfg inp ls stP (overlapClearFires cfg ls.resumePointFound stP)

/-- The bounded `while scroll_attempts < self.max_scroll_attempts` loop,
`fuel` being the number of iterations the guard still allows.  A `none`
stop reason means the guard (the iteration-count circuit breaker)
exhausted. -/
def scrollRun (cfg : ScrollConfig) : Nat → List ScrollInput → LoopState → LoopState × Option StopReason
  | 0, _, ls => (ls, none)
  | fuel + 1, inps, ls =>
    let step := scrollIter cfg (inps.headD defaultInput) ls
    match step.2 with
    | some r => (step.1, some r)
    | none => scrollRun cfg fuel inps.tail step.1

/-- `PlaywrightScraper._scroll_timeline`: local counters start at zero,
`resume_point_found = False if resume_from_tweet_id else True`, and the
loop runs for at most `max_scroll_attempts` iterations. -/
def scroll_timeline (cfg : ScrollConfig) (inps : List ScrollInput) (st0 : ScrollState) :
    LoopState × Option StopReason :=
  scrollRun cfg cfg.maxScrollAttempts inps
    { st := st0, scrollAttempts := 0, attemptsWithoutNew := 0,
      resumePointFound := !truthyStrOpt cfg.resumeFrom }

/-!
## The orchestrator (`XScraper.scrape_user_tweets`, src/src/scraper.py)

After a successful scroll the orchestrator merges, computes the new
checkpoint record, and performs the two disk writes.  `commitSession`
embeds lines 290-337; its third component is the ordered list of
persistence operations actually issued.  `orchestrateScrape` embeds the
return-value plumbing of lines 279-353 together with the error paths of
`PlaywrightScraper.scrape_user_tweets` (lines 583-585) and the fact that
`save_checkpoint` / `save_all_tweets` swallow their own write failures
(src/src/checkpoint_manager.py:45-60, 81-118).
-/

/-- The per-target checkpoint record assembled at src/src/scraper.py:319-327
(dates omitted: the model's tweets carry no `created_at`). -/
structure CheckpointData where
  totalTweets : Nat
  oldestTweetId : Option String
  newestTweetId : Option String
  sessionCount : Nat
  lastSessionTweets : Nat
deriving DecidableEq

/-- A persistence operation issued by the orchestrator. -/
inductive PersistEvent where
  | checkpointWrite
  | archiveWrite
deriving DecidableEq

/-- Post-scroll commit of `XScraper.scrape_user_tweets`
(src/src/scraper.py:290-337): merge if there were existing tweets, build
the checkpoint record from the ascending numeric-id sort, then — when any
tweets exist — call `save_checkpoint` (line 334) and `save_all_tweets`
(line 337), in that order. -/
def commitSession (existing_tweets new_tweets : List Tweet)
    (checkpoint : Option CheckpointData) :
    List Tweet × Option CheckpointData × List PersistEvent :=
  let all_tweets :=
    if existing_tweets.isEmpty then new_tweets
    else merge_tweets existing_tweets new_tweets
  if all_tweets.isEmpty then (all_tweets, none, [])
  else
    let sorted_by_id := sortByIdAsc all_tweets
    let oldest_tweet := sorted_by_id.head?
    let newest_tweet := sorted_by_id.getLast?
    let session_number :=
      match checkpoint with
      | some cp => cp.sessionCount + 1
      | none => 1
    let cd : CheckpointData :=
      { totalTweets := all_tweets.length,
        oldestTweetId := oldest_tweet.bind Tweet.id,
        newestTweetId := newest_tweet.bind Tweet.id,
        sessionCount := session_number,
        lastSessionTweets := new_tweets.length }
    (all_tweets, some cd, [PersistEvent.checkpointWrite, PersistEvent.archiveWrite])

/-- The dictionary returned by `PlaywrightScraper.scrape_user_tweets`,
restricted to the fields the claims are about: on any exception the
handler at lines 583-585 returns `{'error': str(e), 'tweets': self.all_tweets}`;
on success lines 575-581 return the collected tweets with no error key. -/
structure ScrapeOutcome where
  error : Option String
  tweets : List Tweet
deriving DecidableEq

/-- `PlaywrightScraper.scrape_user_tweets` result construction: `collected`
is the in-memory buffer at the moment the call finishes or raises. -/
def playwrightScrapeResult (collected : List Tweet) (failure : Option String) :
    ScrapeOutcome :=
  match failure with
  | some e => { error := some e, tweets := collected }
  | none => { error := none, tweets := collected }

/-- What `XScraper.scrape_user_tweets` hands back to its caller. -/
structure OrchestratorResult where
  error : Option String
  tweets : List Tweet
deriving DecidableEq

/-- Which of the two files actually reached disk. -/
structure DiskState where
  checkpointWritten : Bool
  archiveWritten : Bool
deriving DecidableEq

/-- Return-value plumbing of `XScraper.scrape_user_tweets`
(src/src/scraper.py:279-353).  If the scrape result carries an error key
it is returned unchanged, partial tweets included (lines 286-288).
Otherwise the merged list is persisted — `save_checkpoint` and
`save_all_tweets` catch their own exceptions, so an injected write failure
(`checkpointWriteFails` / `archiveWriteFails`) only affects the disk, never
the returned value — and the caller receives the merged tweets filtered by
the configured `_apply_filters` predicate (lines 351-353). -/
def orchestrateScrape (existing_tweets : List Tweet) (outcome : ScrapeOutcome)
    (filterPred : Tweet → Bool) (checkpoint : Option CheckpointData)
    (checkpointWriteFails archiveWriteFails : Bool) :
    OrchestratorResult × DiskState :=
  match outcome.error with
  | some e =>
    ({ error := some e, tweets := outcome.tweets },
     { checkpointWritten := false, archiveWritten := false })
  | none =>
    let committed := commitSession existing_tweets outcome.tweets checkpoint
    let all_tweets := committed.1
    let disk : DiskState :=
      { checkpointWritten := !checkpointWriteFails && !all_tweets.isEmpty,
        archiveWritten := !archiveWriteFails && !all_tweets.isEmpty }
    ({ error := none, tweets := all_tweets.filter filterPred }, disk)

/-!
## Concrete scenarios

Synthetic inputs used by the counterexamples and witnesses below; the
resume scenario is the one of spec §8 ("overlap-threshold trigger"):
`overlapThreshold = 5`, `existingIds = {1..50}`, a stream delivering new
items 51-60 and then duplicates 40-49.
-/

/-- Existing archive ids 1..50. -/
def specExistingIds : List String :=
  (List.range 50).map (fun i => toString (i + 1))

/-- The ten genuinely new items 51..60. -/
def specNewItems : List Tweet :=
  (List.range 10).map (fun i => { id := some (toString (51 + i)), body := 0 })

/-- The ten duplicates of existing ids 40..49. -/
def specDupItems : List Tweet :=
  (List.range 10).map (fun i => { id := some (toString (40 + i)), body := 0 })

/-- Resume-session configuration for the §8 scenario. -/
def specResumeCfg : ScrollConfig :=
  { maxScrollAttempts := 10, maxAttemptsWithoutNew := 3, overlapThreshold := 5,
    maxTweetsPerSession := none, resumeFrom := some "1", existingIds := specExistingIds }

/-- The §8 synthetic stream: one batch of new items, then one batch of
duplicates. -/
def specResumeStream : List ScrollInput :=
  [{ batch := specNewItems, isAtBottom := false, elapsedOver600 := false },
   { batch := specDupItems, isAtBottom := false, elapsedOver600 := false }]

/-- Fresh-session configuration with a session cap of 10 (spec §8
"session cap"). -/
def capCfg : ScrollConfig :=
  { maxScrollAttempts := 5, maxAttemptsWithoutNew := 3, overlapThreshold := 5,
    maxTweetsPerSession := some 10, resumeFrom := none, existingIds := [] }

/-- A single scroll delivering twelve distinct new items at once. -/
def capBatchOf12 : List ScrollInput :=
  [{ batch := (List.range 12).map (fun i => { id := some (toString (100 + i)), body := 0 }),
     isAtBottom := false, elapsedOver600 := false }]

/-- Fresh-session configuration with a session cap of 3. -/
def capCfg3 : ScrollConfig :=
  { maxScrollAttempts := 8, maxAttemptsWithoutNew := 5, overlapThreshold := 5,
    maxTweetsPerSession := some 3, resumeFrom := none, existingIds := [] }

/-- Five scrolls each delivering one distinct new item. -/
def unitStream5 : List ScrollInput :=
  (List.range 5).map
    (fun i => { batch := [{ id := some (toString (200 + i)), body := 0 }],
                isAtBottom := false, elapsedOver600 := false })

/-- Configuration for the zero-progress witness: generous ceilings, no
resume. -/
def zeroProgressCfg : ScrollConfig :=
  { maxScrollAttempts := 30, maxAttemptsWithoutNew := 50, overlapThreshold := 5,
    maxTweetsPerSession := none, resumeFrom := none, existingIds := [] }

/-!
## Lemmas about the id-keyed dict
-/

theorem truthyId_eq_some {t : Tweet} {k : String} (h : truthyId t = some k) :
    t.id = some k := by
  cases ht : t.id with
  | none => simp [truthyId, ht] at h
  | some s =>
    simp only [truthyId, ht] at h
    split at h
    · simp at h
    · exact h

theorem MapWF_nil : MapWF [] := by
  intro p hp
  exact absurd hp (List.not_mem_nil p)

theorem mapInsert_keys (m : TweetMap) (k : String) (v : Tweet) :
    (mapInsert m k v).map Prod.fst =
      if k ∈ m.map Prod.fst then m.map Prod.fst else m.map Prod.fst ++ [k] := by
  unfold mapInsert
  by_cases h : k ∈ m.map Prod.fst
  · simp only [if_pos h, List.map_map]
    refine List.map_congr_left ?_
    intro p _
    by_cases h1 : p.1 = k
    · simp [Function.comp, h1]
    · simp [Function.comp, h1]
  · simp [if_neg h]

theorem insertTweet_keys (m : TweetMap) (t : Tweet) :
    (insertTweet m t).map Prod.fst = m.map Prod.fst ∨
      ∃ k, truthyId t = some k ∧ k ∉ m.map Prod.fst ∧
        (insertTweet m t).map Prod.fst = m.map Prod.fst ++ [k] := by
  unfold insertTweet
  cases htr : truthyId t with
  | none => exact Or.inl rfl
  | some k =>
    rw [mapInsert_keys]
    by_cases h : k ∈ m.map Prod.fst
    · exact Or.inl (if_pos h)
    · exact Or.inr ⟨k, rfl, h, if_neg h⟩

theorem nodup_keys_insertTweet {m : TweetMap} (h : (m.map Prod.fst).Nodup) (t : Tweet) :
    ((insertTweet m t).map Prod.fst).Nodup := by
  rcases insertTweet_keys m t with h1 | ⟨k, _, hk, h1⟩
  · rwa [h1]
  · rw [h1, ← List.concat_eq_append]
    exact List.Nodup.concat hk h

theorem wf_mapInsert {m : TweetMap} (h : MapWF m) {k : String} {v : Tweet}
    (hv : truthyId v = some k) : MapWF (mapInsert m k v) := by
  unfold mapInsert
  by_cases hk : k ∈ m.map Prod.fst
  · rw [if_pos hk]
    intro p hp
    rcases List.mem_map.mp hp with ⟨q, hq, hfq⟩
    by_cases h1 : q.1 = k
    · rw [if_pos h1] at hfq; rw [← hfq]; exact hv
    · rw [if_neg h1] at hfq; rw [← hfq]; exact h q hq
  · rw [if_neg hk]
    intro p hp
    rcases List.mem_append.mp hp with hp | hp
    · exact h p hp
    · rw [List.mem_singleton] at hp
      subst hp
      exact hv

theorem wf_insertTweet {m : TweetMap} (h : MapWF m) (t : Tweet) :
    MapWF (insertTweet m t) := by
  cases htr : truthyId t with
  | none => simpa only [insertTweet, htr] using h
  | some k =>
    simp only [insertTweet, htr]
    exact wf_mapInsert h htr

theorem wf_buildMap {m : TweetMap} (h : MapWF m) (ts : List Tweet) :
    MapWF (buildMap m ts) := by
  induction ts generalizing m with
  | nil => exact h
  | cons t ts ih => exact ih (wf_insertTweet h t)

theorem nodup_keys_buildMap {m : TweetMap} (h : (m.map Prod.fst).Nodup) (ts : List Tweet) :
    ((buildMap m ts).map Prod.fst).Nodup := by
  induction ts generalizing m with
  | nil => exact h
  | cons t ts ih => exact ih (nodup_keys_insertTweet h t)

theorem pairwise_ne_id_values {m : TweetMap} (hwf : MapWF m)
    (hnd : (m.map Prod.fst).Nodup) :
    (m.map Prod.snd).Pairwise (fun a b => a.id ≠ b.id) := by
  rw [List.pairwise_map]
  have h1 : m.Pairwise (fun p q => p.1 ≠ q.1) := List.pairwise_map.mp hnd
  refine List.Pairwise.imp_of_mem ?_ h1
  intro a b ha hb hne
  rw [truthyId_eq_some (hwf a ha), truthyId_eq_some (hwf b hb)]
  intro hc
  exact hne (Option.some.inj hc)

theorem wf_uniqueInsert {m : TweetMap} (h : MapWF m) (t : Tweet) :
    MapWF (uniqueInsert m t) := by
  cases htr : truthyId t with
  | none => simpa only [uniqueInsert, htr] using h
  | some k =>
    simp only [uniqueInsert, htr]
    by_cases hk : k ∈ m.map Prod.fst
    · rwa [if_pos hk]
    · rw [if_neg hk]
      intro p hp
      rcases List.mem_append.mp hp with hp | hp
      · exact h p hp
      · rw [List.mem_singleton] at hp
        subst hp
        exact htr

theorem nodup_keys_uniqueInsert {m : TweetMap} (h : (m.map Prod.fst).Nodup) (t : Tweet) :
    ((uniqueInsert m t).map Prod.fst).Nodup := by
  cases htr : truthyId t with
  | none => simpa only [uniqueInsert, htr] using h
  | some k =>
    simp only [uniqueInsert, htr]
    by_cases hk : k ∈ m.map Prod.fst
    · rwa [if_pos hk]
    · rw [if_neg hk, List.map_append, List.map_singleton, ← List.concat_eq_append]
      exact List.Nodup.concat hk h

theorem wf_foldl_uniqueInsert {m : TweetMap} (h : MapWF m) (ts : List Tweet) :
    MapWF (ts.foldl uniqueInsert m) := by
  induction ts generalizing m with
  | nil => exact h
  | cons t ts ih => exact ih (wf_uniqueInsert h t)

theorem nodup_keys_foldl_uniqueInsert {m : TweetMap} (h : (m.map Prod.fst).Nodup)
    (ts : List Tweet) : ((ts.foldl uniqueInsert m).map Prod.fst).Nodup := by
  induction ts generalizing m with
  | nil => exact h
  | cons t ts ih => exact ih (nodup_keys_uniqueInsert h t)

/-- Permutation transfer: sorting the archive preserves pairwise-distinct
ids. -/
theorem pairwise_ne_id_sortByIdDesc {ts : List Tweet}
    (h : ts.Pairwise (fun a b => a.id ≠ b.id)) :
    (sortByIdDesc ts).Pairwise (fun a b => a.id ≠ b.id) := by
  have hperm : List.Perm (sortByIdDesc ts) ts :=
    List.perm_insertionSort _ ts
  exact (hperm.pairwise_iff (fun hab hc => hab hc.symm)).mpr h

/-!
## C7 — the persisted archive never holds two items with the same id
-/

/-- C7: after any session, the persisted archive contains no two items
sharing the same id — both `merge_tweets` and `save_all_tweets`
deduplicate by id, so every list either of them produces is pairwise
distinct in `id`. -/
theorem c7_archive_no_duplicate_ids :
    (∀ ts : List Tweet, (save_all_tweets ts).Pairwise (fun a b => a.id ≠ b.id)) ∧
    (∀ A B : List Tweet, (merge_tweets A B).Pairwise (fun a b => a.id ≠ b.id)) := by
  constructor
  · intro ts
    unfold save_all_tweets
    refine pairwise_ne_id_sortByIdDesc ?_
    exact pairwise_ne_id_values (wf_foldl_uniqueInsert MapWF_nil ts)
      (nodup_keys_foldl_uniqueInsert (by simp) ts)
  · intro A B
    unfold merge_tweets
    exact pairwise_ne_id_values (wf_buildMap (wf_buildMap MapWF_nil A) B)
      (nodup_keys_buildMap (nodup_keys_buildMap (by simp) A) B)

/-!
## C2 — order of the checkpoint and archive writes
-/

/-- C2 counterexample: at the end of a successful session with one
collected tweet, the orchestrator issues the checkpoint write first and
the archive write second (src/src/scraper.py:334 and 337), so the archive
write does not precede the checkpoint write as the claim requires. -/
theorem c2_counterexample :
    (commitSession [] [{ id := some "7", body := 0 }] none).2.2
        = [PersistEvent.checkpointWrite, PersistEvent.archiveWrite] ∧
    ¬ ((commitSession [] [{ id := some "7", body := 0 }] none).2.2.indexOf
          PersistEvent.archiveWrite
        < (commitSession [] [{ id := some "7", body := 0 }] none).2.2.indexOf
          PersistEvent.checkpointWrite) := by
  constructor
  · rfl
  · decide

/-- C2 amended: the orchestrator either persists nothing (no tweets) or
persists the checkpoint first and the merged archive second. -/
theorem c2_checkpoint_precedes_archive (existing_tweets new_tweets : List Tweet)
    (cp : Option CheckpointData) :
    (commitSession existing_tweets new_tweets cp).2.2 = [] ∨
    (commitSession existing_tweets new_tweets cp).2.2
      = [PersistEvent.checkpointWrite, PersistEvent.archiveWrite] := by
  unfold commitSession
  dsimp only
  split
  all_goals split
  all_goals first
    | exact Or.inl rfl
    | exact Or.inr rfl

/-!
## C9 — error markers and partial results under failures
-/

/-- C9 counterexample: inject an archive write failure after a successful
one-tweet scrape.  The archive never reaches disk
(`archiveWritten = false`), yet the caller receives the normal success
dictionary with no error marker at all — `save_all_tweets` caught the
exception and only logged it (checkpoint_manager.py:116-118) — refuting
the claim that a checkpoint/archive write failure yields the collected
items "together with an error marker"; and with a configured
`_apply_filters` predicate that rejects the tweet, the returned list does
not even contain the collected item. -/
theorem c9_counterexample :
    ((orchestrateScrape [] (playwrightScrapeResult [{ id := some "7", body := 0 }] none)
        (fun _ => true) none false true).2.archiveWritten = false) ∧
    ((orchestrateScrape [] (playwrightScrapeResult [{ id := some "7", body := 0 }] none)
        (fun _ => true) none false true).1.error = none) ∧
    ((orchestrateScrape [] (playwrightScrapeResult [{ id := some "7", body := 0 }] none)
        (fun _ => false) none false true).1.tweets = []) :=
  ⟨rfl, rfl, rfl⟩

/-- C9 amended: a failure inside the scrape itself still hands the caller
every tweet collected so far together with the error string — the handler
of `PlaywrightScraper.scrape_user_tweets` returns
`{'error': str(e), 'tweets': self.all_tweets}` and the error branch of
`XScraper.scrape_user_tweets` forwards that dictionary unchanged.  A
checkpoint/archive write failure after the scroll, by contrast, is
swallowed inside `CheckpointManager`: the caller receives exactly the
same success result as when persistence succeeds — no error marker, the
merged tweets filtered by the configured predicate — so disk failure is
never surfaced in the return value. -/
theorem c9_error_marker_only_for_scrape_failures (existing_tweets collected : List Tweet)
    (e : String) (filterPred : Tweet → Bool) (cp : Option CheckpointData)
    (cf af : Bool) :
    ((orchestrateScrape existing_tweets (playwrightScrapeResult collected (some e))
        filterPred cp cf af).1
      = { error := some e, tweets := collected }) ∧
    ((orchestrateScrape existing_tweets (playwrightScrapeResult collected none)
        filterPred cp cf af).1.error = none) ∧
    ((orchestrateScrape existing_tweets (playwrightScrapeResult collected none)
        filterPred cp cf af).1
      = (orchestrateScrape existing_tweets (playwrightScrapeResult collected none)
          filterPred cp false false).1) :=
  ⟨rfl, rfl, rfl⟩

/-!
## C3 — the merge result is not sorted
-/

/-- C3 counterexample: merging the singleton archives with ids "1" and
"2" returns the items in dict insertion order `["1", "2"]`, while the
claimed result (value set sorted by numeric id descending) is
`["2", "1"]`. -/
theorem c3_counterexample :
    merge_tweets [{ id := some "1", body := 0 }] [{ id := some "2", body := 0 }]
      ≠ specMergeSorted [{ id := some "1", body := 0 }] [{ id := some "2", body := 0 }] :=
  of_decide_eq_true rfl

/-!
## Replay lemmas: re-inserting a dict's values reproduces the dict

These drive the idempotence proof (C5): `merge(A, merge(A,B))` folds the
values of the dict `merge(A,B)` back over the dict built from `A`, and
that replay is shown to reproduce the dict exactly.
-/

theorem buildMap_append (m : TweetMap) (l1 l2 : List Tweet) :
    buildMap m (l1 ++ l2) = buildMap (buildMap m l1) l2 :=
  List.foldl_append ..

theorem map_update_not_mem {m : TweetMap} {k : String} (h : k ∉ m.map Prod.fst) (v : Tweet) :
    m.map (fun p => if p.1 = k then (k, v) else p) = m := by
  induction m with
  | nil => rfl
  | cons q m ih =>
    simp only [List.map_cons] at h ⊢
    rw [List.mem_cons, not_or] at h
    rw [if_neg (fun hc : q.1 = k => h.1 hc.symm), ih h.2]

theorem mapInsert_cons_ne {k k' : String} (hne : k' ≠ k) (t v : Tweet) (m : TweetMap) :
    mapInsert ((k, t) :: m) k' v = (k, t) :: mapInsert m k' v := by
  have hkk : ¬ ((k, t).1 = k') := fun hc => hne hc.symm
  unfold mapInsert
  simp only [List.map_cons]
  by_cases h : k' ∈ m.map Prod.fst
  · rw [if_pos (List.mem_cons.mpr (Or.inr h)), if_pos h]
    simp [hkk]
  · have hA : k' ∉ (k, t).1 :: m.map Prod.fst := by
      rw [List.mem_cons, not_or]
      exact ⟨hne, h⟩
    rw [if_neg hA, if_neg h]
    simp

theorem insertTweet_cons {k : String} {t' : Tweet} (hne : truthyId t' ≠ some k)
    (t : Tweet) (m : TweetMap) :
    insertTweet ((k, t) :: m) t' = (k, t) :: insertTweet m t' := by
  cases htr : truthyId t' with
  | none => simp only [insertTweet, htr]
  | some k' =>
    have hkk : k' ≠ k := fun hc => hne (by rw [htr, hc])
    simp only [insertTweet, htr]
    exact mapInsert_cons_ne hkk t t' m

theorem buildMap_cons_notin {k : String} {ts : List Tweet}
    (h : ∀ t' ∈ ts, truthyId t' ≠ some k) (t : Tweet) (m : TweetMap) :
    buildMap ((k, t) :: m) ts = (k, t) :: buildMap m ts := by
  induction ts generalizing m with
  | nil => rfl
  | cons t' ts ih =>
    show buildMap (insertTweet ((k, t) :: m) t') ts
        = (k, t) :: buildMap (insertTweet m t') ts
    rw [insertTweet_cons (h t' (List.mem_cons_self t' ts)) t m]
    exact ih (fun x hx => h x (List.mem_cons_of_mem t' hx)) (insertTweet m t')

/-- Replaying the values of a dict `σ` over a dict `m` with the same key
list (in the same order) reproduces `σ`. -/
theorem buildMap_replay_eq {σ : TweetMap} (hwf : MapWF σ) (hnd : (σ.map Prod.fst).Nodup) :
    ∀ m : TweetMap, m.map Prod.fst = σ.map Prod.fst →
      buildMap m (σ.map Prod.snd) = σ := by
  induction σ with
  | nil =>
    intro m hm
    simp only [List.map_nil] at hm
    rw [List.map_eq_nil_iff] at hm
    rw [hm]
    rfl
  | cons p σ ih =>
    intro m hm
    obtain ⟨k, t⟩ := p
    have hcons : (((k, t) :: σ).map Prod.fst).Nodup → (k :: σ.map Prod.fst).Nodup :=
      fun hx => hx
    have hnd' := List.nodup_cons.mp (hcons hnd)
    have hknotin : k ∉ σ.map Prod.fst := hnd'.1
    have htk : truthyId t = some k := hwf (k, t) (List.mem_cons_self _ _)
    cases m with
    | nil => simp at hm
    | cons q m' =>
      simp only [List.map_cons] at hm
      injection hm with h1 h2
      show buildMap (insertTweet (q :: m') t) (σ.map Prod.snd) = (k, t) :: σ
      have hins : insertTweet (q :: m') t = (k, t) :: m' := by
        simp only [insertTweet, htk]
        unfold mapInsert
        simp only [List.map_cons]
        rw [if_pos (List.mem_cons.mpr (Or.inl h1.symm)), if_pos h1]
        have hk' : k ∉ m'.map Prod.fst := by
          rw [h2]
          exact hknotin
        rw [map_update_not_mem hk' t]
      rw [hins]
      rw [buildMap_cons_notin ?_ t m']
      · rw [ih (fun x hx => hwf x (List.mem_cons_of_mem _ hx)) hnd'.2 m' h2]
      · intro t' ht'
        rcases List.mem_map.mp ht' with ⟨p', hp', rfl⟩
        rw [hwf p' (List.mem_cons_of_mem _ hp')]
        intro hc
        exact hknotin (by
          rw [← Option.some.inj hc]
          exact List.mem_map_of_mem Prod.fst hp')

/-- Replaying the values of a dict `σ` whose keys are all fresh for `m`
appends `σ` to `m`. -/
theorem buildMap_replay_fresh {σ : TweetMap} (hwf : MapWF σ) (hnd : (σ.map Prod.fst).Nodup) :
    ∀ m : TweetMap, (∀ q ∈ σ, q.1 ∉ m.map Prod.fst) →
      buildMap m (σ.map Prod.snd) = m ++ σ := by
  induction σ with
  | nil =>
    intro m _
    simp [buildMap]
  | cons p σ ih =>
    intro m hfresh
    obtain ⟨k, t⟩ := p
    have hcons : (((k, t) :: σ).map Prod.fst).Nodup → (k :: σ.map Prod.fst).Nodup :=
      fun hx => hx
    have hnd' := List.nodup_cons.mp (hcons hnd)
    have hknotin : k ∉ σ.map Prod.fst := hnd'.1
    have htk : truthyId t = some k := hwf (k, t) (List.mem_cons_self _ _)
    show buildMap (insertTweet m t) (σ.map Prod.snd) = m ++ (k, t) :: σ
    have hins : insertTweet m t = m ++ [(k, t)] := by
      simp only [insertTweet, htk]
      unfold mapInsert
      rw [if_neg (hfresh (k, t) (List.mem_cons_self _ _))]
    rw [hins]
    rw [ih (fun x hx => hwf x (List.mem_cons_of_mem _ hx)) hnd'.2
      (m ++ [(k, t)]) ?_]
    · rw [List.append_assoc]
      rfl
    · intro q hq
      rw [List.map_append]
      intro hc
      rcases List.mem_append.mp hc with hc | hc
      · exact hfresh q (List.mem_cons_of_mem _ hq) hc
      · simp only [List.map_singleton, List.mem_singleton] at hc
        exact hknotin (by
          rw [← hc]
          exact List.mem_map_of_mem Prod.fst hq)

/-- Structure of an incremental dict build: the result is the original
key skeleton (values possibly updated), followed by entries with fresh
keys. -/
theorem buildMap_decomp (B : List Tweet) :
    ∀ m : TweetMap, ∃ σ₁ σ₂ : TweetMap,
      buildMap m B = σ₁ ++ σ₂ ∧ σ₁.map Prod.fst = m.map Prod.fst ∧
        ∀ q ∈ σ₂, q.1 ∉ m.map Prod.fst := by
  induction B with
  | nil =>
    intro m
    exact ⟨m, [], by simp [buildMap], rfl, by simp⟩
  | cons t B ih =>
    intro m
    rcases insertTweet_keys m t with hkeys | ⟨k, htk, hk, hkeys⟩
    · obtain ⟨σ₁, σ₂, h1, h2, h3⟩ := ih (insertTweet m t)
      refine ⟨σ₁, σ₂, h1, ?_, ?_⟩
      · rw [h2, hkeys]
      · intro q hq
        rw [← hkeys]
        exact h3 q hq
    · obtain ⟨σ₁', σ₂', h1, h2, h3⟩ := ih (insertTweet m t)
      have h2' : σ₁'.map Prod.fst = m.map Prod.fst ++ [k] := by rw [h2, hkeys]
      have hne : σ₁' ≠ [] := by
        intro hc
        rw [hc] at h2'
        simp at h2'
      have hsplit : σ₁'.dropLast ++ [σ₁'.getLast hne] = σ₁' :=
        List.dropLast_append_getLast hne
      have hmaps : (σ₁'.dropLast).map Prod.fst ++ [(σ₁'.getLast hne).1]
          = m.map Prod.fst ++ [k] := by
        rw [show [(σ₁'.getLast hne).1] = [σ₁'.getLast hne].map Prod.fst from rfl]
        rw [← List.map_append, hsplit]
        exact h2'
      obtain ⟨hA, hB⟩ := List.append_inj' hmaps rfl
      have hlastk : (σ₁'.getLast hne).1 = k := by simpa using hB
      refine ⟨σ₁'.dropLast, σ₁'.getLast hne :: σ₂', ?_, hA, ?_⟩
      · calc buildMap m (t :: B) = buildMap (insertTweet m t) B := rfl
          _ = σ₁' ++ σ₂' := h1
          _ = (σ₁'.dropLast ++ [σ₁'.getLast hne]) ++ σ₂' := by rw [hsplit]
          _ = σ₁'.dropLast ++ (σ₁'.getLast hne :: σ₂') := by
              rw [List.append_assoc]
              rfl
      · intro q hq
        rcases List.mem_cons.mp hq with hq | hq
        · rw [hq, hlastk]
          exact hk
        · intro hc
          exact h3 q hq (by
            rw [hkeys]
            exact List.mem_append_left _ hc)

/-- Idempotence of the source merge: folding the values of
`merge(A, B)`'s dict back over `A`'s dict reproduces the dict. -/
theorem merge_tweets_idem (A B : List Tweet) :
    merge_tweets A (merge_tweets A B) = merge_tweets A B := by
  obtain ⟨σ₁, σ₂, hdec, hk1, hk2⟩ := buildMap_decomp B (buildMap [] A)
  have hwf2 : MapWF (buildMap (buildMap [] A) B) :=
    wf_buildMap (wf_buildMap MapWF_nil A) B
  have hnd2 : ((buildMap (buildMap [] A) B).map Prod.fst).Nodup :=
    nodup_keys_buildMap (nodup_keys_buildMap (by simp) A) B
  rw [hdec] at hwf2 hnd2
  have hwfσ₁ : MapWF σ₁ := fun p hp => hwf2 p (List.mem_append_left _ hp)
  have hwfσ₂ : MapWF σ₂ := fun p hp => hwf2 p (List.mem_append_right _ hp)
  rw [List.map_append] at hnd2
  have hndσ₁ := hnd2.of_append_left
  have hndσ₂ := hnd2.of_append_right
  show (buildMap (buildMap [] A) ((buildMap (buildMap [] A) B).map Prod.snd)).map Prod.snd
      = (buildMap (buildMap [] A) B).map Prod.snd
  rw [hdec, List.map_append, buildMap_append]
  rw [buildMap_replay_eq hwfσ₁ hndσ₁ (buildMap [] A) hk1.symm]
  rw [buildMap_replay_fresh hwfσ₂ hndσ₂ σ₁
    (fun q hq => by
      rw [hk1]
      exact hk2 q hq)]
  rw [List.map_append]

theorem map_getD_eq_filterMap {A : List Tweet}
    (hsome : ∀ t ∈ A, (truthyId t).isSome) :
    A.map (fun t => (truthyId t).getD "") = A.filterMap truthyId := by
  induction A with
  | nil => rfl
  | cons t ts ih =>
    have h1 : (truthyId t).isSome := hsome t (List.mem_cons_self _ _)
    cases htr : truthyId t with
    | none =>
      rw [htr] at h1
      simp at h1
    | some k =>
      simp only [List.map_cons, List.filterMap_cons, htr, Option.getD_some]
      rw [ih (fun x hx => hsome x (List.mem_cons_of_mem _ hx))]

/-- Merging an empty new set over a well-formed archive is a no-op. -/
theorem merge_tweets_nil_noop {A : List Tweet} (h : ArchiveWF A) :
    merge_tweets A [] = A := by
  obtain ⟨hsome, hnd⟩ := h
  have hwfσ : MapWF (A.map keyPair) := by
    intro p hp
    rcases List.mem_map.mp hp with ⟨t, ht, rfl⟩
    have h1 : (truthyId t).isSome := hsome t ht
    cases htr : truthyId t with
    | none =>
      rw [htr] at h1
      simp at h1
    | some k => simp [keyPair, htr]
  have hkeys : (A.map keyPair).map Prod.fst = A.filterMap truthyId := by
    rw [List.map_map]
    exact map_getD_eq_filterMap hsome
  have hndσ : ((A.map keyPair).map Prod.fst).Nodup := by
    rw [hkeys]
    exact hnd
  have hvals : (A.map keyPair).map Prod.snd = A := by
    rw [List.map_map]
    exact List.map_id A
  have hre := buildMap_replay_fresh hwfσ hndσ [] (by
    intro q _
    simp)
  rw [hvals] at hre
  simp only [List.nil_append] at hre
  show (buildMap (buildMap [] A) []).map Prod.snd = A
  calc (buildMap (buildMap [] A) []).map Prod.snd
      = (buildMap [] A).map Prod.snd := rfl
    _ = ((A.map keyPair)).map Prod.snd := by rw [hre]
    _ = A := hvals

/-!
## C5 — merge idempotence and empty-merge no-op
-/

/-- C5: for every existing list `A` and new list `B`,
`merge(A, merge(A, B)) = merge(A, B)`; and over a well-formed archive
(truthy, pairwise-distinct ids — what the source ever persists), merging
an empty new list returns the archive unchanged. -/
theorem c5_merge_idempotent (A B : List Tweet) :
    merge_tweets A (merge_tweets A B) = merge_tweets A B ∧
      (ArchiveWF A → merge_tweets A [] = A) :=
  ⟨merge_tweets_idem A B, fun h => merge_tweets_nil_noop h⟩

/-- Witness for C5 at a concrete archive and new set. -/
theorem c5_witness :
    (merge_tweets [{ id := some "9", body := 1 }]
        (merge_tweets [{ id := some "9", body := 1 }] [{ id := some "3", body := 2 }])
      = merge_tweets [{ id := some "9", body := 1 }] [{ id := some "3", body := 2 }]) ∧
    merge_tweets [{ id := some "9", body := 1 }] [] = [{ id := some "9", body := 1 }] :=
  ⟨(c5_merge_idempotent [{ id := some "9", body := 1 }] [{ id := some "3", body := 2 }]).1,
   (c5_merge_idempotent [{ id := some "9", body := 1 }] [{ id := some "3", body := 2 }]).2
     (by constructor
         · decide
         · decide)⟩

/-!
## Lookup characterisation of the merge mapping (C3 amended)
-/

theorem find?_update_self {m : TweetMap} {k : String} (h : k ∈ m.map Prod.fst) (v : Tweet) :
    (m.map (fun p => if p.1 = k then (k, v) else p)).find? (fun p => p.1 = k)
      = some (k, v) := by
  induction m with
  | nil => simp at h
  | cons q m ih =>
    simp only [List.map_cons]
    by_cases h1 : q.1 = k
    · rw [if_pos h1]
      exact List.find?_cons_of_pos _ (by simp)
    · rw [if_neg h1]
      rw [List.find?_cons_of_neg _ (by simp [h1])]
      refine ih ?_
      rcases List.mem_cons.mp h with hc | hc
      · exact absurd hc.symm h1
      · exact hc

theorem find?_update_ne {m : TweetMap} {k k' : String} (hne : k ≠ k') (v : Tweet) :
    (m.map (fun p => if p.1 = k' then (k', v) else p)).find? (fun p => p.1 = k)
      = m.find? (fun p => p.1 = k) := by
  induction m with
  | nil => rfl
  | cons q m ih =>
    simp only [List.map_cons]
    by_cases h1 : q.1 = k'
    · rw [if_pos h1]
      rw [List.find?_cons_of_neg _ (by simp [Ne.symm hne]),
        List.find?_cons_of_neg _ (by simp [h1, Ne.symm hne])]
      exact ih
    · rw [if_neg h1]
      by_cases h2 : q.1 = k
      · rw [List.find?_cons_of_pos _ (by simp [h2]), List.find?_cons_of_pos _ (by simp [h2])]
      · rw [List.find?_cons_of_neg _ (by simp [h2]), List.find?_cons_of_neg _ (by simp [h2])]
        exact ih

theorem lookup_mapInsert (k k' : String) (m : TweetMap) (v : Tweet) :
    mapLookup k (mapInsert m k' v) = if k = k' then some v else mapLookup k m := by
  unfold mapInsert mapLookup
  by_cases hmem : k' ∈ m.map Prod.fst
  · rw [if_pos hmem]
    by_cases hk : k = k'
    · subst hk
      rw [if_pos rfl, find?_update_self hmem v]
      rfl
    · rw [if_neg hk, find?_update_ne hk v]
  · rw [if_neg hmem]
    by_cases hk : k = k'
    · subst hk
      rw [if_pos rfl, List.find?_append]
      have h0 : m.find? (fun p => p.1 = k) = none := by
        rw [List.find?_eq_none]
        intro p hp hc
        exact hmem (by
          rw [← of_decide_eq_true hc]
          exact List.mem_map_of_mem Prod.fst hp)
      rw [h0]
      simp
    · rw [if_neg hk, List.find?_append]
      have h1 : ([(k', v)].find? (fun p => p.1 = k)) = none := by
        have hne : ¬ k' = k := fun hc => hk hc.symm
        simp [hne]
      rw [h1]
      simp

theorem lookup_insertTweet (k : String) (m : TweetMap) (t : Tweet) :
    mapLookup k (insertTweet m t) =
      if truthyId t = some k then some t else mapLookup k m := by
  cases htr : truthyId t with
  | none => simp [insertTweet, htr]
  | some k' =>
    simp only [insertTweet, htr]
    rw [lookup_mapInsert k k' m t]
    by_cases hk : k = k'
    · subst hk
      simp
    · rw [if_neg hk, if_neg (fun hc => hk (Option.some.inj hc).symm)]

theorem lookup_buildMap (k : String) (ts : List Tweet) :
    ∀ m : TweetMap, mapLookup k (buildMap m ts) =
      match lastKeyed k ts with
      | some x => some x
      | none => mapLookup k m := by
  induction ts with
  | nil =>
    intro m
    rfl
  | cons t ts ih =>
    intro m
    show mapLookup k (buildMap (insertTweet m t) ts) = _
    rw [ih (insertTweet m t)]
    cases hl : lastKeyed k ts with
    | some x => simp [lastKeyed, hl]
    | none =>
      rw [lookup_insertTweet]
      by_cases ht : truthyId t = some k
      · simp [lastKeyed, hl, ht]
      · simp [lastKeyed, hl, ht]

/-- C3 amended: `merge_tweets` equals the value list of the spec's
id-keyed mapping (existing items first, new items overwriting/inserting)
in the mapping's insertion order — not sorted; and that mapping is
last-writer-wins: looking up any id yields the last item of
`existing ++ new` carrying that id. -/
theorem c3_merge_value_set_insertion_order (A B : List Tweet) :
    merge_tweets A B = (specMergeMapping A B).map Prod.snd ∧
      ∀ k : String, mapLookup k (specMergeMapping A B) = lastKeyed k (A ++ B) := by
  constructor
  · show (buildMap (buildMap [] A) B).map Prod.snd = _
    unfold specMergeMapping
    rw [show (A ++ B).foldl insertTweet [] = buildMap [] (A ++ B) from rfl]
    rw [buildMap_append]
  · intro k
    rw [show specMergeMapping A B = buildMap [] (A ++ B) from rfl]
    rw [lookup_buildMap k (A ++ B) []]
    cases lastKeyed k (A ++ B) <;> rfl

/-!
## Lemmas about the scroll loop
-/

theorem BufferInv_freshState (existing : List String) : BufferInv existing freshState := by
  refine ⟨rfl, List.nodup_nil, ?_, ?_⟩ <;> (intro t ht; exact absurd ht (List.not_mem_nil t))

theorem BufferInv_accept {existing : List String} {st : ScrollState}
    (h : BufferInv existing st) (t : Tweet) :
    BufferInv existing (acceptTweet existing st t) := by
  obtain ⟨hsync, hnd, hsome, hraw⟩ := h
  cases htr : truthyId t with
  | none => simpa only [acceptTweet, htr] using ⟨hsync, hnd, hsome, hraw⟩
  | some k =>
    simp only [acceptTweet, htr]
    by_cases h1 : k ∈ st.scrapedIds
    · rw [if_pos h1]
      exact ⟨hsync, hnd, hsome, hraw⟩
    · rw [if_neg h1]
      by_cases h2 : k ∈ existing
      · rw [if_pos h2]
        exact ⟨hsync, hnd, hsome, hraw⟩
      · rw [if_neg h2]
        refine ⟨?_, ?_, ?_, ?_⟩
        · show st.scrapedIds ++ [k] = (st.allTweets ++ [t]).filterMap truthyId
          simp only [List.filterMap_append, List.filterMap_cons, htr, List.filterMap_nil]
          rw [hsync]
        · show (st.scrapedIds ++ [k]).Nodup
          rw [← List.concat_eq_append]
          exact List.Nodup.concat h1 hnd
        · intro x hx
          rcases List.mem_append.mp hx with hx | hx
          · exact hsome x hx
          · rw [List.mem_singleton] at hx
            subst hx
            rw [htr]
            rfl
        · intro x hx
          rcases List.mem_append.mp hx with hx | hx
          · exact hraw x hx
          · rw [List.mem_singleton] at hx
            subst hx
            unfold rawIdMem
            rw [truthyId_eq_some htr]
            exact decide_eq_false h2

theorem BufferInv_ingest {existing : List String} {st : ScrollState}
    (h : BufferInv existing st) (batch : List Tweet) :
    BufferInv existing (ingest existing st batch) := by
  induction batch generalizing st with
  | nil => exact h
  | cons t batch ih => exact ih (BufferInv_accept h t)

theorem overlapCount_zero {existing : List String} {st : ScrollState}
    (h : ∀ t ∈ st.allTweets, rawIdMem existing t = false) :
    overlapCount existing st = 0 := by
  unfold overlapCount
  rw [List.length_eq_zero]
  rw [List.filter_eq_nil_iff]
  intro t ht
  rw [h t ht]
  simp

theorem overlapClearFires_false {cfg : ScrollConfig} {found : Bool} {st : ScrollState}
    (hth : 0 < cfg.overlapThreshold)
    (hbuf : ∀ t ∈ st.allTweets, rawIdMem cfg.existingIds t = false) :
    overlapClearFires cfg found st = false := by
  unfold overlapClearFires
  have h0 : overlapCount cfg.existingIds st = 0 := overlapCount_zero hbuf
  have h1 : ¬ (cfg.overlapThreshold ≤ overlapCount cfg.existingIds st) := by
    rw [h0]
    omega
  simp [h1]

theorem tailChecks_state (cfg : ScrollConfig) (inp : ScrollInput) (ls : LoopState) :
    (tailChecks cfg inp ls).1 = ls := by
  unfold tailChecks
  split_ifs <;> rfl

theorem scrollIterCore_state (cfg : ScrollConfig) (inp : ScrollInput) (ls : LoopState)
    (stP : ScrollState) (cf : Bool) :
    (scrollIterCore cfg inp ls stP cf).1.st = (if cf then freshState else stP) ∧
    (scrollIterCore cfg inp ls stP cf).1.scrollAttempts = ls.scrollAttempts + 1 ∧
    (scrollIterCore cfg inp ls stP cf).1.resumePointFound = (ls.resumePointFound || cf) := by
  unfold scrollIterCore
  dsimp only
  split_ifs <;> simp [tailChecks_state]

theorem scrollIter_eq (cfg : ScrollConfig) (inp : ScrollInput) (ls : LoopState) :
    scrollIter cfg inp ls =
      scrollIterCore cfg inp ls (ingest cfg.existingIds ls.st inp.batch)
        (overlapClearFires cfg ls.resumePointFound (ingest cfg.existingIds ls.st inp.batch)) :=
  rfl

theorem scrollIter_attempts (cfg : ScrollConfig) (inp : ScrollInput) (ls : LoopState) :
    (scrollIter cfg inp ls).1.scrollAttempts = ls.scrollAttempts + 1 := by
  rw [scrollIter_eq]
  exact (scrollIterCore_state cfg inp ls _ _).2.1

theorem scrollIter_st (cfg : ScrollConfig) (inp : ScrollInput) (ls : LoopState) :
    (scrollIter cfg inp ls).1.st = ingest cfg.existingIds ls.st inp.batch ∨
      (scrollIter cfg inp ls).1.st = freshState := by
  rw [scrollIter_eq]
  rw [(scrollIterCore_state cfg inp ls _ _).1]
  split_ifs
  · exact Or.inr rfl
  · exact Or.inl rfl

theorem scrollIter_found (cfg : ScrollConfig) (inp : ScrollInput) (ls : LoopState) :
    (scrollIter cfg inp ls).1.resumePointFound
      = (ls.resumePointFound
          || overlapClearFires cfg ls.resumePointFound
              (ingest cfg.existingIds ls.st inp.batch)) := by
  rw [scrollIter_eq]
  exact (scrollIterCore_state cfg inp ls _ _).2.2

theorem BufferInv_scrollIter {cfg : ScrollConfig} {inp : ScrollInput} {ls : LoopState}
    (h : BufferInv cfg.existingIds ls.st) :
    BufferInv cfg.existingIds (scrollIter cfg inp ls).1.st := by
  rcases scrollIter_st cfg inp ls with hst | hst
  · rw [hst]
    exact BufferInv_ingest h inp.batch
  · rw [hst]
    exact BufferInv_freshState _

theorem scrollRun_succ (cfg : ScrollConfig) (fuel : Nat) (inps : List ScrollInput)
    (ls : LoopState) :
    scrollRun cfg (fuel + 1) inps ls =
      match (scrollIter cfg (inps.headD defaultInput) ls).2 with
      | some r => ((scrollIter cfg (inps.headD defaultInput) ls).1, some r)
      | none => scrollRun cfg fuel inps.tail (scrollIter cfg (inps.headD defaultInput) ls).1 :=
  rfl

theorem scrollRun_inv {cfg : ScrollConfig} :
    ∀ (fuel : Nat) (inps : List ScrollInput) (ls : LoopState),
      BufferInv cfg.existingIds ls.st →
      BufferInv cfg.existingIds (scrollRun cfg fuel inps ls).1.st := by
  intro fuel
  induction fuel with
  | zero =>
    intro inps ls h
    exact h
  | succ fuel ih =>
    intro inps ls h
    rw [scrollRun_succ]
    cases hstep : (scrollIter cfg (inps.headD defaultInput) ls).2 with
    | some r =>
      simp only [hstep]
      exact BufferInv_scrollIter h
    | none =>
      simp only [hstep]
      exact ih inps.tail _ (BufferInv_scrollIter h)

/-- While the invariant holds and the overlap threshold is positive, the
resume-point flag can never flip to true: the overlap count over a
buffer free of existing ids is zero. -/
theorem scrollRun_found_false {cfg : ScrollConfig} (hth : 0 < cfg.overlapThreshold) :
    ∀ (fuel : Nat) (inps : List ScrollInput) (ls : LoopState),
      ls.resumePointFound = false → BufferInv cfg.existingIds ls.st →
      (scrollRun cfg fuel inps ls).1.resumePointFound = false := by
  intro fuel
  induction fuel with
  | zero =>
    intro inps ls hf _
    exact hf
  | succ fuel ih =>
    intro inps ls hf hinv
    have hinv2 : BufferInv cfg.existingIds
        (ingest cfg.existingIds ls.st (inps.headD defaultInput).batch) :=
      BufferInv_ingest hinv _
    have hcf : overlapClearFires cfg ls.resumePointFound
        (ingest cfg.existingIds ls.st (inps.headD defaultInput).batch) = false :=
      overlapClearFires_false hth hinv2.2.2.2
    rw [hf] at hcf
    have hfound : (scrollIter cfg (inps.headD defaultInput) ls).1.resumePointFound = false := by
      rw [scrollIter_found, hf, hcf]
      rfl
    rw [scrollRun_succ]
    cases hstep : (scrollIter cfg (inps.headD defaultInput) ls).2 with
    | some r =>
      simp only [hstep]
      exact hfound
    | none =>
      simp only [hstep]
      exact ih inps.tail _ hfound (BufferInv_scrollIter hinv)

theorem pairwise_ne_id_of_filterMap {ts : List Tweet}
    (hsome : ∀ t ∈ ts, (truthyId t).isSome)
    (hnd : (ts.filterMap truthyId).Nodup) :
    ts.Pairwise (fun a b => a.id ≠ b.id) := by
  induction ts with
  | nil => exact List.Pairwise.nil
  | cons t ts ih =>
    have h1 : (truthyId t).isSome := hsome t (List.mem_cons_self _ _)
    cases htr : truthyId t with
    | none =>
      rw [htr] at h1
      simp at h1
    | some k =>
      simp only [List.filterMap_cons, htr] at hnd
      have hnd' := List.nodup_cons.mp hnd
      refine List.Pairwise.cons ?_
        (ih (fun x hx => hsome x (List.mem_cons_of_mem _ hx)) hnd'.2)
      intro b hb hc
      have hbs := hsome b (List.mem_cons_of_mem _ hb)
      cases htrb : truthyId b with
      | none =>
        rw [htrb] at hbs
        simp at hbs
      | some kb =>
        rw [truthyId_eq_some htr, truthyId_eq_some htrb] at hc
        exact hnd'.1 (by
          rw [Option.some.inj hc]
          exact List.mem_filterMap.mpr ⟨b, hb, htrb⟩)

/-!
## C4 — the resume-confirmation phase is unreachable
-/

/-- C4: in a resume session (truthy resume anchor, positive overlap
threshold) started from a cleared buffer, the loop never confirms the
resume point: `_parse_tweets_from_timeline` filters every tweet whose id
is in `existing_tweet_ids` before it reaches the buffer, so the overlap
count of `_scroll_timeline` is always 0.  The phase "after the resume
point was confirmed" that the claim constrains therefore never begins. -/
theorem c4_resume_confirmation_unreachable (cfg : ScrollConfig) (inps : List ScrollInput)
    (hresume : truthyStrOpt cfg.resumeFrom = true) (hth : 0 < cfg.overlapThreshold) :
    (scroll_timeline cfg inps freshState).1.resumePointFound = false := by
  unfold scroll_timeline
  refine scrollRun_found_false hth cfg.maxScrollAttempts inps _ ?_ (BufferInv_freshState _)
  simp [hresume]

/-- Witness for C4 at the spec §8 resume configuration. -/
theorem c4_witness :
    (scroll_timeline specResumeCfg [] freshState).1.resumePointFound = false :=
  c4_resume_confirmation_unreachable specResumeCfg [] (by decide) (by decide)

/-!
## C1 — the overlap-threshold clear never fires
-/

/-- C1: on the spec §8 scenario (`overlapThreshold = 5`, existing ids
1-50, one batch of new items 51-60 followed by one batch of duplicates
40-49), the loop never clears the buffer and never confirms the resume
point: the duplicates are filtered out by the parser dedup step before
the overlap counter can see them, so the count stays 0, the ten
pre-overlap items are still in the buffer at the end, and the loop runs
to its attempt ceiling without any stop. -/
theorem c1_overlap_clear_never_fires :
    (scroll_timeline specResumeCfg specResumeStream freshState).1.resumePointFound = false ∧
    (scroll_timeline specResumeCfg specResumeStream freshState).1.st.allTweets = specNewItems ∧
    overlapCount specResumeCfg.existingIds
        (scroll_timeline specResumeCfg specResumeStream freshState).1.st = 0 ∧
    (scroll_timeline specResumeCfg specResumeStream freshState).2 = none := by
  refine ⟨?_, ?_, ?_, ?_⟩ <;> exact of_decide_eq_true rfl

/-!
## C10 — the dedup set mirrors the buffer
-/

/-- C10: for every scroll session started from the cleared state, the
session dedup set `scraped_tweet_ids` is exactly the list of ids of the
buffered tweets (in order), and consequently the buffer never holds two
tweets with the same id. -/
theorem c10_dedup_set_matches_buffer (cfg : ScrollConfig) (inps : List ScrollInput) :
    (scroll_timeline cfg inps freshState).1.st.scrapedIds
        = (scroll_timeline cfg inps freshState).1.st.allTweets.filterMap truthyId ∧
      (scroll_timeline cfg inps freshState).1.st.allTweets.Pairwise
        (fun a b => a.id ≠ b.id) := by
  have h := @scrollRun_inv cfg cfg.maxScrollAttempts inps
    { st := freshState, scrollAttempts := 0, attemptsWithoutNew := 0,
      resumePointFound := !truthyStrOpt cfg.resumeFrom } (BufferInv_freshState _)
  obtain ⟨hsync, hnd, hsome, _⟩ := h
  refine ⟨hsync, ?_⟩
  refine pairwise_ne_id_of_filterMap hsome ?_
  rw [hsync] at hnd
  exact hnd

/-!
## C8 — zero extraction aborts at the fixed minimum of 20 attempts
-/

theorem scrollIterCore_empty_stop {cfg : ScrollConfig} {inp : ScrollInput} {ls : LoopState}
    {cf : Bool} (hempty : ls.st.allTweets = []) :
    (scrollIterCore cfg inp ls ls.st cf).2 = none → ls.scrollAttempts + 1 < 20 := by
  intro h
  unfold scrollIterCore at h
  dsimp only at h
  by_cases h20 : 20 ≤ ls.scrollAttempts + 1
  · exfalso
    cases cf <;> simp [h20, hempty, freshState] at h
  · omega

theorem scrollIter_empty {cfg : ScrollConfig} {inp : ScrollInput} {ls : LoopState}
    (hb : inp.batch = []) (hempty : ls.st.allTweets = []) :
    (scrollIter cfg inp ls).1.st.allTweets = [] ∧
      ((scrollIter cfg inp ls).2 = none → ls.scrollAttempts + 1 < 20) := by
  have hing : ingest cfg.existingIds ls.st inp.batch = ls.st := by
    rw [hb]
    rfl
  constructor
  · rcases scrollIter_st cfg inp ls with hst | hst
    · rw [hst, hing, hempty]
    · rw [hst]
      rfl
  · intro h
    rw [scrollIter_eq, hing] at h
    exact scrollIterCore_empty_stop hempty h

theorem scrollRun_zero_abort {cfg : ScrollConfig} :
    ∀ (fuel : Nat) (inps : List ScrollInput) (ls : LoopState),
      (∀ i ∈ inps, i.batch = []) → ls.st.allTweets = [] →
      ls.scrollAttempts < 20 → 20 ≤ ls.scrollAttempts + fuel →
      ((scrollRun cfg fuel inps ls).2).isSome ∧
        (scrollRun cfg fuel inps ls).1.scrollAttempts ≤ 20 := by
  intro fuel
  induction fuel with
  | zero =>
    intro inps ls _ _ h1 h2
    exact absurd h2 (by omega)
  | succ fuel ih =>
    intro inps ls hb hst h1 h2
    have hbhead : (inps.headD defaultInput).batch = [] := by
      cases inps with
      | nil => rfl
      | cons i inps => exact hb i (List.mem_cons_self _ _)
    obtain ⟨hst', hcont⟩ := scrollIter_empty hbhead hst
    rw [scrollRun_succ]
    cases hstep : (scrollIter cfg (inps.headD defaultInput) ls).2 with
    | some r =>
      simp only [hstep]
      refine ⟨rfl, ?_⟩
      rw [scrollIter_attempts]
      omega
    | none =>
      simp only [hstep]
      have h20 := hcont hstep
      refine ih inps.tail _ ?_ hst' ?_ ?_
      · intro i hi
        exact hb i (List.mem_of_mem_tail hi)
      · rw [scrollIter_attempts]
        exact h20
      · rw [scrollIter_attempts]
        omega

/-- C8: if the extractor yields zero items on every response, the loop
always stops via a break (never by exhausting the `max_scroll_attempts`
guard, provided that ceiling is at least the fixed minimum), and it has
made at most 20 scroll attempts — the fixed minimum of the zero-progress
abort — when it stops. -/
theorem c8_zero_progress_abort (cfg : ScrollConfig) (inps : List ScrollInput)
    (hb : ∀ i ∈ inps, i.batch = []) (hmax : 20 ≤ cfg.maxScrollAttempts) :
    ((scroll_timeline cfg inps freshState).2).isSome ∧
      (scroll_timeline cfg inps freshState).1.scrollAttempts ≤ 20 := by
  unfold scroll_timeline
  refine scrollRun_zero_abort cfg.maxScrollAttempts inps
    { st := freshState, scrollAttempts := 0, attemptsWithoutNew := 0,
      resumePointFound := !truthyStrOpt cfg.resumeFrom } hb rfl
    (by
      show (0 : Nat) < 20
      decide) ?_
  show 20 ≤ 0 + cfg.maxScrollAttempts
  omega

/-- Witness for C8: with generous ceilings and no responses at all, the
loop stops within 20 attempts. -/
theorem c8_witness :
    ((scroll_timeline zeroProgressCfg [] freshState).2).isSome ∧
      (scroll_timeline zeroProgressCfg [] freshState).1.scrollAttempts ≤ 20 :=
  c8_zero_progress_abort zeroProgressCfg [] (by simp) (by decide)

/-!
## C6 — the session cap
-/

theorem tailChecks_capStop {cfg : ScrollConfig} {inp : ScrollInput} {ls : LoopState}
    (h : (tailChecks cfg inp ls).2 = some StopReason.capStop) :
    (ls.resumePointFound && capReached cfg.maxTweetsPerSession ls.st.allTweets.length)
      = true := by
  unfold tailChecks at h
  split_ifs at h with h1 h2 h3 <;>
    first
      | exact h1
      | simp at h

theorem tailChecks_none_cap {cfg : ScrollConfig} {inp : ScrollInput} {ls : LoopState}
    (h : (tailChecks cfg inp ls).2 = none) :
    (ls.resumePointFound && capReached cfg.maxTweetsPerSession ls.st.allTweets.length)
      = false := by
  unfold tailChecks at h
  split_ifs at h with h1 h2 h3 <;>
    first
      | exact Bool.eq_false_iff.mpr h1
      | simp at h

theorem scrollIterCore_capStop {cfg : ScrollConfig} {inp : ScrollInput} {ls : LoopState}
    {stP : ScrollState} {cf : Bool}
    (h : (scrollIterCore cfg inp ls stP cf).2 = some StopReason.capStop) :
    ((scrollIterCore cfg inp ls stP cf).1.resumePointFound &&
      capReached cfg.maxTweetsPerSession
        (scrollIterCore cfg inp ls stP cf).1.st.allTweets.length) = true := by
  unfold scrollIterCore at h ⊢
  dsimp only at h ⊢
  split_ifs at h ⊢ <;> first
    | (rw [tailChecks_state]
       exact tailChecks_capStop h)
    | simp at h

theorem scrollIterCore_none_cap {cfg : ScrollConfig} {inp : ScrollInput} {ls : LoopState}
    {stP : ScrollState} {cf : Bool}
    (h : (scrollIterCore cfg inp ls stP cf).2 = none) :
    ((scrollIterCore cfg inp ls stP cf).1.resumePointFound &&
      capReached cfg.maxTweetsPerSession
        (scrollIterCore cfg inp ls stP cf).1.st.allTweets.length) = false := by
  unfold scrollIterCore at h ⊢
  dsimp only at h ⊢
  split_ifs at h ⊢ <;> first
    | (rw [tailChecks_state]
       exact tailChecks_none_cap h)
    | simp at h

theorem scrollIter_capStop {cfg : ScrollConfig} {inp : ScrollInput} {ls : LoopState}
    (h : (scrollIter cfg inp ls).2 = some StopReason.capStop) :
    ((scrollIter cfg inp ls).1.resumePointFound &&
      capReached cfg.maxTweetsPerSession
        (scrollIter cfg inp ls).1.st.allTweets.length) = true := by
  rw [scrollIter_eq] at h ⊢
  exact scrollIterCore_capStop h

theorem scrollIter_none_cap {cfg : ScrollConfig} {inp : ScrollInput} {ls : LoopState}
    (h : (scrollIter cfg inp ls).2 = none) :
    ((scrollIter cfg inp ls).1.resumePointFound &&
      capReached cfg.maxTweetsPerSession
        (scrollIter cfg inp ls).1.st.allTweets.length) = false := by
  rw [scrollIter_eq] at h ⊢
  exact scrollIterCore_none_cap h

theorem scrollIter_found_mono {cfg : ScrollConfig} {inp : ScrollInput} {ls : LoopState}
    (h : ls.resumePointFound = true) :
    (scrollIter cfg inp ls).1.resumePointFound = true := by
  rw [scrollIter_found, h]
  rfl

theorem capReached_le {m n : Nat} (h : capReached (some m) n = true) : m ≤ n := by
  unfold capReached at h
  simp at h
  exact h.2

theorem acceptTweet_length (existing : List String) (st : ScrollState) (t : Tweet) :
    (acceptTweet existing st t).allTweets.length ≤ st.allTweets.length + 1 := by
  unfold acceptTweet
  cases truthyId t with
  | none => exact Nat.le_succ _
  | some k =>
    dsimp only
    split_ifs
    · exact Nat.le_succ _
    · exact Nat.le_succ _
    · simp

theorem ingest_length (existing : List String) (batch : List Tweet) :
    ∀ st : ScrollState,
      (ingest existing st batch).allTweets.length ≤ st.allTweets.length + batch.length := by
  induction batch with
  | nil =>
    intro st
    exact Nat.le_add_right _ _
  | cons t batch ih =>
    intro st
    have h1 := ih (acceptTweet existing st t)
    have h2 := acceptTweet_length existing st t
    show (ingest existing (acceptTweet existing st t) batch).allTweets.length
        ≤ st.allTweets.length + (batch.length + 1)
    omega

theorem scrollIter_length {cfg : ScrollConfig} {inp : ScrollInput} {ls : LoopState} :
    (scrollIter cfg inp ls).1.st.allTweets.length
      ≤ ls.st.allTweets.length + inp.batch.length := by
  rcases scrollIter_st cfg inp ls with hst | hst
  · rw [hst]
    exact ingest_length _ _ _
  · rw [hst]
    exact Nat.zero_le _

theorem scrollRun_capStop_ge {cfg : ScrollConfig} {m : Nat}
    (hcap : cfg.maxTweetsPerSession = some m) :
    ∀ (fuel : Nat) (inps : List ScrollInput) (ls : LoopState),
      (scrollRun cfg fuel inps ls).2 = some StopReason.capStop →
      m ≤ (scrollRun cfg fuel inps ls).1.st.allTweets.length := by
  intro fuel
  induction fuel with
  | zero =>
    intro inps ls h
    simp [scrollRun] at h
  | succ fuel ih =>
    intro inps ls h
    rw [scrollRun_succ] at h ⊢
    cases hstep : (scrollIter cfg (inps.headD defaultInput) ls).2 with
    | some r =>
      simp only [hstep] at h ⊢
      have hr : r = StopReason.capStop := by simpa using h
      subst hr
      have hc := scrollIter_capStop hstep
      rw [hcap] at hc
      exact capReached_le (Bool.and_eq_true .. |>.mp hc).2
    | none =>
      simp only [hstep] at h ⊢
      exact ih inps.tail _ h

theorem scrollRun_cap_bound {cfg : ScrollConfig} {m : Nat}
    (hcap : cfg.maxTweetsPerSession = some m) (hm : m ≠ 0) :
    ∀ (fuel : Nat) (inps : List ScrollInput) (ls : LoopState),
      ls.resumePointFound = true →
      ls.st.allTweets.length < m →
      (∀ i ∈ inps, i.batch.length ≤ 1) →
      (scrollRun cfg fuel inps ls).1.st.allTweets.length ≤ m := by
  intro fuel
  induction fuel with
  | zero =>
    intro inps ls _ hlen _
    exact Nat.le_of_lt hlen
  | succ fuel ih =>
    intro inps ls hfound hlen hunit
    have hbhead : (inps.headD defaultInput).batch.length ≤ 1 := by
      cases inps with
      | nil => exact Nat.zero_le 1
      | cons i inps => exact hunit i (List.mem_cons_self _ _)
    have hlen' := @scrollIter_length cfg (inps.headD defaultInput) ls
    rw [scrollRun_succ]
    cases hstep : (scrollIter cfg (inps.headD defaultInput) ls).2 with
    | some r =>
      simp only [hstep]
      omega
    | none =>
      simp only [hstep]
      have hfound' : (scrollIter cfg (inps.headD defaultInput) ls).1.resumePointFound = true :=
        scrollIter_found_mono hfound
      have hcapf := scrollIter_none_cap hstep
      rw [hfound'] at hcapf
      rw [Bool.true_and, hcap] at hcapf
      have hlt : (scrollIter cfg (inps.headD defaultInput) ls).1.st.allTweets.length < m := by
        by_contra hge
        push_neg at hge
        have hcr : capReached (some m)
            (scrollIter cfg (inps.headD defaultInput) ls).1.st.allTweets.length = true := by
          unfold capReached
          rw [Bool.and_eq_true]
          exact ⟨decide_eq_true hm, decide_eq_true hge⟩
        rw [hcr] at hcapf
        exact absurd hcapf (by simp)
      exact ih inps.tail _ hfound' hlt (fun i hi => hunit i (List.mem_of_mem_tail hi))

/-- C6 counterexample: in a fresh session with cap 10, a single scroll
delivering twelve distinct new items completes its appends and then stops
via the session cap with 12 items in the buffer, not 10: the loop never
stops with *exactly* the cap when an iteration pushes past it. -/
theorem c6_counterexample :
    (scroll_timeline capCfg capBatchOf12 freshState).2 = some StopReason.capStop ∧
    (scroll_timeline capCfg capBatchOf12 freshState).1.st.allTweets.length = 12 ∧
    ¬ ((scroll_timeline capCfg capBatchOf12 freshState).1.st.allTweets.length = 10) := by
  refine ⟨?_, ?_, ?_⟩ <;> exact of_decide_eq_true rfl

/-- C6 amended: in a fresh session (no resume) with a nonzero session cap
`m`, an iteration that would push past the cap still completes its
appends and the loop stops at the end of the first iteration whose buffer
holds at least `m` items — so a cap stop yields at least `m` items, no
further iteration starts once the cap is reached, and when every
iteration appends at most one item the loop never exceeds `m` (hence
stops with exactly `m` items on a cap stop). -/
theorem c6_session_cap_bound (cfg : ScrollConfig) (inps : List ScrollInput) (m : Nat)
    (hfresh : cfg.resumeFrom = none) (hcap : cfg.maxTweetsPerSession = some m)
    (hm : m ≠ 0) :
    ((scroll_timeline cfg inps freshState).2 = some StopReason.capStop →
        m ≤ (scroll_timeline cfg inps freshState).1.st.allTweets.length) ∧
      ((∀ i ∈ inps, i.batch.length ≤ 1) →
        (scroll_timeline cfg inps freshState).1.st.allTweets.length ≤ m) := by
  constructor
  · intro h
    exact scrollRun_capStop_ge hcap cfg.maxScrollAttempts inps _ h
  · intro hunit
    refine scrollRun_cap_bound hcap hm cfg.maxScrollAttempts inps _ ?_ ?_ hunit
    · simp [hfresh, truthyStrOpt]
    · exact Nat.pos_of_ne_zero hm

/-- Witness for C6 at cap 3 with unit batches: the loop stops with
exactly 3 items. -/
theorem c6_witness :
    3 ≤ (scroll_timeline capCfg3 unitStream5 freshState).1.st.allTweets.length ∧
      (scroll_timeline capCfg3 unitStream5 freshState).1.st.allTweets.length ≤ 3 :=
  ⟨(c6_session_cap_bound capCfg3 unitStream5 3 rfl rfl (by decide)).1 (of_decide_eq_true rfl),
   (c6_session_cap_bound capCfg3 unitStream5 3 rfl rfl (by decide)).2 (by decide)⟩

end XScraper
